import Mathlib

/-!
Verification of the message-aggregation and response-delivery pipeline of the
telebotgemini repository, against its natural-language specification.

Texts are modelled as `List Char`.  Python's `str.isspace` is modelled for the
ASCII whitespace characters actually produced by the pipeline.
-/

namespace Telebot

/-- Model of Python `str.isspace` on a single character (ASCII whitespace:
space, tab, newline, carriage return, vertical tab, form feed). -/
def isSpacePy (c : Char) : Bool :=
  c == ' ' || c == '\t' || c == '\n' || c == '\r' || c == Char.ofNat 11 || c == Char.ofNat 12

/-- Model of Python `str.strip()`: remove leading and trailing whitespace. -/
def pyStrip (s : List Char) : List Char :=
  ((s.dropWhile isSpacePy).reverse.dropWhile isSpacePy).reverse

/-- Does `sub` occur in `t` starting at index `i`?  Used to model Python
`str.rfind` restricted to a slice. -/
def matchesAt (t sub : List Char) (i : Nat) : Bool :=
  sub.isPrefixOf (t.drop i)

/-- Model of Python `text.rfind(sub, s, e)`: the largest index `i` with
`s ≤ i`, `i + len(sub) ≤ e` and `sub` occurring in `t` at `i`; `none` when
there is no occurrence (Python returns `-1`). -/
def rfindIn (t sub : List Char) (s e : Nat) : Option Nat :=
  ((List.range' s (e - s)).filter (fun i => decide (i + sub.length ≤ e) && matchesAt t sub i)).getLast?

/-- Keep an index only when it is strictly greater than `p`; models the
`rfind_result > current_pos` guards in `split_long_message`. -/
def filtGt (o : Option Nat) (p : Nat) : Option Nat :=
  match o with
  | some i => if p < i then some i else none
  | none => none

/-- The split-point selection of `split_long_message` (src/bot/utils.py,
lines 43-57): last double newline, else last single newline, else last
space, else the hard window boundary `endPos`. -/
def chooseSplit (t : List Char) (pos endPos : Nat) : Nat :=
  match filtGt (rfindIn t ['\n', '\n'] pos endPos) pos with
  | some i => i + 2
  | none =>
    match filtGt (rfindIn t ['\n'] pos endPos) pos with
    | some i => i + 1
    | none =>
      match filtGt (rfindIn t [' '] pos endPos) pos with
      | some i => i + 1
      | none => endPos

/-- Helper for `skipWs`: walk the remaining characters, advancing the index
over whitespace. -/
def skipWsAux : List Char → Nat → Nat
  | [], p => p
  | c :: rest, p => if isSpacePy c then skipWsAux rest (p + 1) else p

/-- The whitespace-skipping loop of `split_long_message` (src/bot/utils.py,
lines 62-63): advance `p` past consecutive whitespace characters. -/
def skipWs (t : List Char) (p : Nat) : Nat :=
  skipWsAux (t.drop p) p

/-- The main loop of `split_long_message` (src/bot/utils.py, lines 37-63).
The Python `while` loop is modelled with explicit fuel; every iteration
advances `pos` by at least one when `maxLength > 0`, so fuel `t.length`
suffices for the whole loop. -/
def splitGo (t : List Char) (maxLength : Nat) : Nat → Nat → List (List Char)
  | _, 0 => []
  | pos, fuel + 1 =>
    if pos < t.length then
      if t.length ≤ pos + maxLength then
        [t.drop pos]
      else
        let splitAt := chooseSplit t pos (pos + maxLength)
        (t.drop pos).take (splitAt - pos) :: splitGo t maxLength (skipWs t splitAt) fuel
    else []

/-- `split_long_message` from src/bot/utils.py (lines 29-65): split `t` into
chunks of length at most `maxLength`, preferring paragraph/newline/space
boundaries, skipping whitespace after each cut, and filtering out empty
chunks. -/
def split_long_message (t : List Char) (maxLength : Nat) : List (List Char) :=
  (splitGo t maxLength 0 t.length).filter (fun c => !c.isEmpty)

/-- The reconstruction property claimed for the splitter: each chunk is a
prefix of the remaining text, the run of whitespace immediately after each
cut is omitted, and whatever trails the last chunk is all whitespace. -/
def reconChunks : List Char → List (List Char) → Bool
  | t, [] => t.all isSpacePy
  | t, c :: cs => c.isPrefixOf t && reconChunks ((t.drop c.length).dropWhile isSpacePy) cs

theorem getLast?_mem_of_eq_some {α : Type} {l : List α} {a : α}
    (h : l.getLast? = some a) : a ∈ l := by
  have hm : a ∈ l.getLast? := h
  obtain ⟨hne, rfl⟩ := List.mem_getLast?_eq_getLast hm
  exact List.getLast_mem hne

theorem rfindIn_bounds {t sub : List Char} {s e i : Nat}
    (h : rfindIn t sub s e = some i) : s ≤ i ∧ i + sub.length ≤ e := by
  have hmem := getLast?_mem_of_eq_some h
  have := List.mem_filter.mp hmem
  obtain ⟨hr, hp⟩ := this
  have hr' := List.mem_range'_1.mp hr
  simp only [Bool.and_eq_true, decide_eq_true_eq] at hp
  exact ⟨hr'.1, hp.1⟩

theorem filtGt_gt {o : Option Nat} {p i : Nat} (h : filtGt o p = some i) :
    o = some i ∧ p < i := by
  cases o with
  | none => simp [filtGt] at h
  | some j =>
    simp only [filtGt] at h
    by_cases hpj : p < j
    · simp [hpj] at h; exact ⟨by rw [h], by omega⟩
    · simp [hpj] at h

theorem chooseSplit_bounds (t : List Char) (pos endPos : Nat) (hpe : pos < endPos) :
    pos < chooseSplit t pos endPos ∧ chooseSplit t pos endPos ≤ endPos := by
  unfold chooseSplit
  cases h2 : filtGt (rfindIn t ['\n', '\n'] pos endPos) pos with
  | some i =>
    dsimp only
    obtain ⟨hfind, hgt⟩ := filtGt_gt h2
    have := (rfindIn_bounds hfind).2
    simp only [List.length] at this
    constructor <;> omega
  | none =>
    dsimp only
    cases h1 : filtGt (rfindIn t ['\n'] pos endPos) pos with
    | some i =>
      dsimp only
      obtain ⟨hfind, hgt⟩ := filtGt_gt h1
      have := (rfindIn_bounds hfind).2
      simp only [List.length] at this
      constructor <;> omega
    | none =>
      dsimp only
      cases h0 : filtGt (rfindIn t [' '] pos endPos) pos with
      | some i =>
        dsimp only
        obtain ⟨hfind, hgt⟩ := filtGt_gt h0
        have := (rfindIn_bounds hfind).2
        simp only [List.length] at this
        constructor <;> omega
      | none => exact ⟨hpe, le_refl _⟩

theorem skipWsAux_ge (l : List Char) : ∀ p, p ≤ skipWsAux l p := by
  induction l with
  | nil => intro p; exact le_refl _
  | cons c rest ih =>
    intro p
    rw [skipWsAux]
    split
    · have := ih (p + 1); omega
    · exact le_refl _

theorem skipWs_ge (t : List Char) (p : Nat) : p ≤ skipWs t p :=
  skipWsAux_ge (t.drop p) p

theorem skipWsAux_drop (t : List Char) :
    ∀ (l : List Char) (p : Nat), t.drop p = l →
      t.drop (skipWsAux l p) = l.dropWhile isSpacePy := by
  intro l
  induction l with
  | nil => intro p hp; simpa [skipWsAux] using hp
  | cons c rest ih =>
    intro p hp
    rw [skipWsAux]
    by_cases hsp : isSpacePy c
    · rw [if_pos hsp, List.dropWhile_cons_of_pos hsp]
      apply ih
      have : t.drop (p + 1) = (t.drop p).drop 1 := by
        rw [List.drop_drop]
      rw [this, hp]
      rfl
    · rw [if_neg hsp, List.dropWhile_cons_of_neg hsp]
      exact hp

theorem skipWs_drop (t : List Char) (p : Nat) :
    t.drop (skipWs t p) = (t.drop p).dropWhile isSpacePy :=
  skipWsAux_drop t (t.drop p) p rfl

theorem splitGo_sound (t : List Char) (L : Nat) (hL : 0 < L) :
    ∀ fuel pos, t.length ≤ pos + fuel →
      (∀ c ∈ splitGo t L pos fuel, c ≠ [] ∧ c.length ≤ L) ∧
      reconChunks (t.drop pos) (splitGo t L pos fuel) = true := by
  intro fuel
  induction fuel with
  | zero =>
    intro pos hpos
    constructor
    · intro c hc; simp [splitGo] at hc
    · simp [splitGo, reconChunks, List.drop_eq_nil_of_le (by omega : t.length ≤ pos)]
  | succ fuel ih =>
    intro pos hpos
    by_cases hlt : pos < t.length
    · by_cases hend : t.length ≤ pos + L
      · have hGo : splitGo t L pos (fuel + 1) = [t.drop pos] := by
          simp [splitGo, hlt, hend]
        rw [hGo]
        constructor
        · intro c hc
          simp only [List.mem_singleton] at hc
          subst hc
          constructor
          · intro hnil
            have := congrArg List.length hnil
            simp [List.length_drop] at this
            omega
          · rw [List.length_drop]; omega
        · simp only [reconChunks]
          rw [ List.isPrefixOf_iff_prefix.mpr (List.prefix_refl _)]
          simp only [Bool.true_and]
          rw [List.drop_eq_nil_of_le (le_refl _)]
          simp [reconChunks]
      · have hpe : pos < pos + L := by omega
        obtain ⟨hs1, hs2⟩ := chooseSplit_bounds t pos (pos + L) hpe
        set sp := chooseSplit t pos (pos + L) with hsp
        have hGo : splitGo t L pos (fuel + 1) =
            (t.drop pos).take (sp - pos) :: splitGo t L (skipWs t sp) fuel := by
          simp only [splitGo]
          rw [if_pos hlt, if_neg hend]
        have hclen : ((t.drop pos).take (sp - pos)).length = sp - pos := by
          rw [List.length_take, List.length_drop]
          omega
        have hnext : t.length ≤ skipWs t sp + fuel := by
          have := skipWs_ge t sp
          omega
        obtain ⟨ihAll, ihRec⟩ := ih (skipWs t sp) hnext
        rw [hGo]
        constructor
        · intro c hc
          rcases List.mem_cons.mp hc with hhd | htl
          · subst hhd
            constructor
            · intro hnil
              have := congrArg List.length hnil
              rw [hclen] at this
              simp at this
              omega
            · rw [hclen]; omega
          · exact ihAll c htl
        · simp only [reconChunks]
          rw [ List.isPrefixOf_iff_prefix.mpr ( List.take_prefix _ _)]
          simp only [Bool.true_and]
          rw [hclen, List.drop_drop]
          have harith : pos + (sp - pos) = sp := by omega
          rw [harith, ← skipWs_drop]
          exact ihRec
    · constructor
      · intro c hc; simp [splitGo, hlt] at hc
      · simp [splitGo, hlt, reconChunks, List.drop_eq_nil_of_le (by omega : t.length ≤ pos)]

/-- C1: for every text `T` and limit `L` with `0 < L < length T`,
`split_long_message T L` returns chunks that are all non-empty and of length
at most `L`, and concatenating them in order reproduces `T` except that at
each cut point the run of whitespace immediately following the cut is
omitted (`reconChunks`). -/
theorem split_long_message_C1 (t : List Char) (L : Nat) (hL : 0 < L) (hLen : L < t.length) :
    (∀ c ∈ split_long_message t L, c ≠ [] ∧ c.length ≤ L) ∧
    reconChunks t (split_long_message t L) = true := by
  have hfuel : t.length ≤ 0 + t.length := by omega
  obtain ⟨hAll, hRec⟩ := splitGo_sound t L hL t.length 0 hfuel
  have hfilter : split_long_message t L = splitGo t L 0 t.length := by
    unfold split_long_message
    apply List.filter_eq_self.mpr
    intro c hc
    have := (hAll c hc).1
    simp only [Bool.not_eq_true']
    cases c with
    | nil => exact absurd rfl this
    | cons a l => rfl
  rw [hfilter]
  refine ⟨hAll, ?_⟩
  simpa using hRec

/-- Witness for C1 at a concrete text and limit. -/
theorem split_long_message_C1_witness :
    (∀ c ∈ split_long_message "hello world, a test".toList 7, c ≠ [] ∧ c.length ≤ 7) ∧
    reconChunks "hello world, a test".toList (split_long_message "hello world, a test".toList 7) = true :=
  split_long_message_C1 "hello world, a test".toList 7 (by decide) (by decide)

/-! ### ensure_valid_markdown (src/bot/utils.py, lines 67-104) -/

/-- The fenced-code delimiter `'```'` as a stack entry. -/
def tick3 : List Char := ['`', '`', '`']

/-- Is `c` one of the single-character markdown symbols of
`ensure_valid_markdown` (`single_char_symbols = {'*', '`', '~'}`)? -/
def isSingleSym (c : Char) : Bool :=
  c == '*' || c == '`' || c == '~'

/-- Stack update for one single-character symbol (src/bot/utils.py,
lines 85-92): pop when it matches the top of the stack, push otherwise;
non-symbol characters leave the stack unchanged. -/
def applySingle (c : Char) (stack : List (List Char)) : List (List Char) :=
  if isSingleSym c then
    match stack with
    | s :: tl => if s = [c] then tl else [c] :: s :: tl
    | [] => [[c]]
  else stack

/-- Stack update for the `'```'` token (src/bot/utils.py, lines 76-84). -/
def applyTriple (stack : List (List Char)) : List (List Char) :=
  match stack with
  | s :: tl => if s = tick3 then tl else tick3 :: s :: tl
  | [] => [tick3]

/-- The scanning loop of `ensure_valid_markdown`: the head of `stack` is the
top of the Python stack; every consumed token is appended to the output
verbatim, and at the end the unmatched stack entries are appended in pop
order (src/bot/utils.py, lines 75-103). -/
def evmGo : List Char → List (List Char) → List Char
  | [], stack => stack.flatten
  | [c], stack => c :: evmGo [] (applySingle c stack)
  | [c1, c2], stack => c1 :: evmGo [c2] (applySingle c1 stack)
  | c1 :: c2 :: c3 :: rest, stack =>
    if c1 = '`' ∧ c2 = '`' ∧ c3 = '`' then
      '`' :: '`' :: '`' :: evmGo rest (applyTriple stack)
    else
      c1 :: evmGo (c2 :: c3 :: rest) (applySingle c1 stack)

/-- `ensure_valid_markdown` from src/bot/utils.py: close every unmatched
markdown delimiter at the end of the text. -/
def ensure_valid_markdown (t : List Char) : List Char :=
  evmGo t []

theorem applySingle_flatten_count (c d : Char) (stack : List (List Char))
    (hd : isSingleSym d = true) :
    ((applySingle c stack).flatten.count d + (if c = d then 1 else 0)) % 2 =
      stack.flatten.count d % 2 := by
  unfold applySingle
  by_cases hc : isSingleSym c
  · rw [if_pos hc]
    cases stack with
    | nil =>
      dsimp only
      by_cases hcd : c = d
      · subst hcd; simp [List.count_cons]
      · have hdc : (d == c) = false := by
          simp only [beq_eq_false_iff_ne, ne_eq]
          intro h; exact hcd h.symm
        simp [List.count_cons, hcd, hdc]
    | cons s tl =>
      dsimp only
      by_cases hs : s = [c]
      · rw [if_pos hs]
        subst hs
        by_cases hcd : c = d
        · subst hcd; simp [List.count_cons]
        · have hdc : (d == c) = false := by
            simp only [beq_eq_false_iff_ne, ne_eq]
            intro h; exact hcd h.symm
          simp [List.count_cons, hcd, hdc]
      · rw [if_neg hs]
        by_cases hcd : c = d
        · subst hcd; simp [List.count_cons]; omega
        · have hdc : (d == c) = false := by
            simp only [beq_eq_false_iff_ne, ne_eq]
            intro h; exact hcd h.symm
          simp [List.count_cons, hcd, hdc]
  · rw [if_neg hc]
    have hcd : ¬ c = d := by
      intro h; subst h; exact hc hd
    simp [hcd]

theorem applyTriple_flatten_count (d : Char) (stack : List (List Char)) :
    ((applyTriple stack).flatten.count d + tick3.count d) % 2 =
      stack.flatten.count d % 2 := by
  unfold applyTriple
  cases stack with
  | nil => dsimp only; simp [List.count_append]; omega
  | cons s tl =>
    dsimp only
    by_cases hs : s = tick3
    · rw [if_pos hs]
      subst hs
      simp [List.count_append]
      omega
    · rw [if_neg hs]
      simp [List.count_append]
      omega

theorem evmGo_count_parity (d : Char) (hd : isSingleSym d = true) :
    ∀ (t : List Char) (stack : List (List Char)),
      (evmGo t stack).count d % 2 = stack.flatten.count d % 2 := by
  intro t stack
  induction t, stack using evmGo.induct with
  | case1 stack => simp [evmGo]
  | case2 c stack ih =>
    rw [evmGo, List.count_cons]
    simp only [beq_iff_eq]
    have h2 := applySingle_flatten_count c d stack hd
    by_cases hcd : c = d
    · rw [if_pos hcd]
      rw [if_pos hcd] at h2
      omega
    · rw [if_neg hcd]
      rw [if_neg hcd] at h2
      omega
  | case3 c1 c2 stack ih =>
    rw [evmGo, List.count_cons]
    simp only [beq_iff_eq]
    have h2 := applySingle_flatten_count c1 d stack hd
    by_cases hcd : c1 = d
    · rw [if_pos hcd]
      rw [if_pos hcd] at h2
      omega
    · rw [if_neg hcd]
      rw [if_neg hcd] at h2
      omega
  | case4 c1 c2 c3 rest stack htrip ih =>
    rw [evmGo, if_pos htrip]
    rw [List.count_cons, List.count_cons, List.count_cons]
    simp only [beq_iff_eq]
    have hB := applyTriple_flatten_count d stack
    by_cases hdq : d = '`'
    · subst hdq
      have hc3 : tick3.count '`' = 3 := by decide
      rw [hc3] at hB
      rw [if_pos rfl]
      omega
    · have hqd : ¬ ('`' = d) := fun h => hdq h.symm
      have hc3 : tick3.count d = 0 := by
        rw [List.count_eq_zero]
        simp [tick3, hdq]
      rw [hc3] at hB
      rw [if_neg hqd]
      omega
  | case5 c1 c2 c3 rest stack htrip ih =>
    rw [evmGo, if_neg htrip]
    rw [List.count_cons]
    simp only [beq_iff_eq]
    have h2 := applySingle_flatten_count c1 d stack hd
    by_cases hcd : c1 = d
    · rw [if_pos hcd]
      rw [if_pos hcd] at h2
      omega
    · rw [if_neg hcd]
      rw [if_neg hcd] at h2
      omega

/-- C3: for every input text and every single-character delimiter
`d ∈ {*, `, ~}`, the output of `ensure_valid_markdown` contains an even
number of occurrences of `d` (unmatched delimiters are closed at the end). -/
theorem ensure_valid_markdown_C3 (t : List Char) (d : Char)
    (hd : d = '*' ∨ d = '`' ∨ d = '~') :
    (ensure_valid_markdown t).count d % 2 = 0 := by
  have hds : isSingleSym d = true := by
    rcases hd with h | h | h <;> subst h <;> decide
  have := evmGo_count_parity d hds t []
  unfold ensure_valid_markdown
  simpa using this

/-- Witness for C3 at a concrete chunk with an odd number of `*`. -/
theorem ensure_valid_markdown_C3_witness :
    (ensure_valid_markdown "*bold and ```code".toList).count '*' % 2 = 0 :=
  ensure_valid_markdown_C3 "*bold and ```code".toList '*' (Or.inl rfl)

/-! ### Localization (src/core/localization.py) -/

/-- One piece of a translation template: literal text or a `{name}`
placeholder, modelling the strings in `locales/<lang>/general.json` as used
by Python `str.format`. -/
inductive TmplPart where
  | lit (s : List Char)
  | ph (name : List Char)
deriving DecidableEq

/-- A translation template. -/
abbrev Tmpl := List TmplPart

/-- A substitution: the keyword arguments given to `str.format`. -/
abbrev Subst := List (List Char × List Char)

/-- One language's key-to-template map (`_translations[lang]`). -/
abbrev KeyTable := List Char → Option Tmpl

/-- The whole `_translations` dictionary: per-language table, `none` when the
language failed to load. -/
abbrev LangTable := List Char → Option KeyTable

def openBraceChar : Char := Char.ofNat 123

def closeBraceChar : Char := Char.ofNat 125

/-- The placeholder names occurring in a template. -/
def phNames (t : Tmpl) : List (List Char) :=
  t.filterMap fun p => match p with | .ph n => some n | .lit _ => none

def lookupSubst (subst : Subst) (n : List Char) : Option (List Char) :=
  (subst.find? (fun q => q.fst == n)).map (·.snd)

/-- The raw (unformatted) text of a template, placeholders shown literally in
braces — what Python returns after `str.format` raises `KeyError`. -/
def literalText (t : Tmpl) : List Char :=
  (t.map fun p =>
    match p with
    | .lit s => s
    | .ph n => openBraceChar :: (n ++ [closeBraceChar])).flatten

/-- Model of `text.format(**kwargs)` as used by `get_translation`
(src/core/localization.py, lines 63-70): substitute every placeholder when
all are provided; on a missing placeholder value (`KeyError`) return the
unformatted text. -/
def formatPy (t : Tmpl) (subst : Subst) : List Char :=
  if (phNames t).all (fun n => (lookupSubst subst n).isSome) then
    (t.map fun p =>
      match p with
      | .lit s => s
      | .ph n => (lookupSubst subst n).getD []).flatten
  else literalText t

/-- `AVAILABLE_LANGUAGES` from src/core/config.py. -/
def availableLanguages : List (List Char) :=
  ["en".toList, "id".toList, "ru".toList]

/-- `get_translation` from src/core/localization.py (lines 41-70): resolve
the effective language, look the key up with fallback to the default
language, and format; `dflt` is `default_return_key_on_missing`. -/
def get_translation (tbl : LangTable) (defLang : List Char) (key : List Char)
    (langCode : Option (List Char)) (dflt : Bool) (subst : Subst) : List Char :=
  let effective : List Char :=
    match langCode with
    | some l => if availableLanguages.contains l then l else defLang
    | none => defLang
  let translations : Option KeyTable :=
    match tbl effective with
    | some m => some m
    | none => if effective ≠ defLang then tbl defLang else none
  match translations with
  | none =>
    if effective = defLang then
      (if dflt then key else "ERR_LOAD_DEF_LANG:".toList ++ key)
    else
      (if dflt then key else "TR_MISSING:".toList ++ key)
  | some m =>
    let text : Option Tmpl :=
      match m key with
      | some t => some t
      | none => if effective ≠ defLang then (tbl defLang).bind (fun dm => dm key) else none
    match text with
    | none => if dflt then key else "TR_MISSING:".toList ++ key
    | some t => formatPy t subst

/-! ### Response classification (src/bot/handlers.py, lines 390-421) -/

/-- `possible_error_keys_with_vars` from `process_ai_interaction`: error keys
with the names of their placeholder variables. -/
def possible_error_keys_with_vars : List (List Char × List (List Char)) :=
  [("gemini_request_blocked".toList, ["reasons".toList]),
   ("gemini_model_not_found".toList, ["model_id".toList]),
   ("gemini_error_contacting".toList, ["error_message".toList]),
   ("audio_format_not_supported_gemini".toList, ["mime_type".toList]),
   ("document_format_not_supported".toList, ["mime_type".toList]),
   ("audio_too_large".toList, ["max_size_mb".toList]),
   ("document_too_large".toList, ["max_size_mb".toList])]

/-- `possible_error_keys_no_vars` from `process_ai_interaction`. -/
def possible_error_keys_no_vars : List (List Char) :=
  ["ai_feature_disabled".toList, "gemini_api_key_not_configured".toList,
   "gemini_no_content_to_send".toList, "gemini_no_valid_response".toList,
   "gemini_empty_response".toList, "error_processing_audio_data".toList,
   "error_determining_audio_mime".toList, "error_processing_document_data".toList]

/-- The dummy substitution `{var_name: "..."}` used when rendering the error
test set (src/bot/handlers.py, line 409). -/
def dummySubst (vars : List (List Char)) : Subst :=
  vars.map (fun v => (v, "...".toList))

/-- The values of `translated_error_test_values` (src/bot/handlers.py, lines
406-415): for each key with variables, the template rendered with dummy
`"..."` values and the version rendered with no variables at all; plus each
no-variable key rendered plainly. -/
def translated_error_test_values (tbl : LangTable) (defLang lang : List Char) :
    List (List Char) :=
  possible_error_keys_with_vars.map
      (fun p => get_translation tbl defLang p.fst (some lang) true (dummySubst p.snd)) ++
    possible_error_keys_with_vars.map
      (fun p => get_translation tbl defLang p.fst (some lang) true []) ++
    possible_error_keys_no_vars.map
      (fun k => get_translation tbl defLang k (some lang) true [])

/-- The classification test of `process_ai_interaction` (src/bot/handlers.py,
line 417): the raw provider response is a domain error exactly when it is
string-equal to one of the rendered test values. -/
def is_error_response (tbl : LangTable) (defLang lang raw : List Char) : Bool :=
  (translated_error_test_values tbl defLang lang).contains raw

/-- Modelled from the spec: the translation templates of
`locales/en/general.json`, which are not under src/.  Per spec §7 the
ProviderBlocked message is "surfaced with provider-supplied reason text", so
`gemini_request_blocked` embeds the `{reasons}` placeholder; the other error
keys of §7 are modelled as distinct sentences with their documented
placeholders. -/
def modelEnTemplates : KeyTable := fun key =>
  if key == "gemini_request_blocked".toList then
    some [.lit "Request blocked by the provider. Reasons: ".toList, .ph "reasons".toList]
  else if key == "gemini_model_not_found".toList then
    some [.lit "Model ".toList, .ph "model_id".toList, .lit " was not found.".toList]
  else if key == "gemini_error_contacting".toList then
    some [.lit "Error contacting the provider: ".toList, .ph "error_message".toList]
  else if key == "audio_format_not_supported_gemini".toList then
    some [.lit "Audio format ".toList, .ph "mime_type".toList, .lit " is not supported.".toList]
  else if key == "document_format_not_supported".toList then
    some [.lit "Document format ".toList, .ph "mime_type".toList, .lit " is not supported.".toList]
  else if key == "audio_too_large".toList then
    some [.lit "Audio exceeds ".toList, .ph "max_size_mb".toList, .lit " MB.".toList]
  else if key == "document_too_large".toList then
    some [.lit "Document exceeds ".toList, .ph "max_size_mb".toList, .lit " MB.".toList]
  else if key == "ai_feature_disabled".toList then
    some [.lit "The AI feature is disabled.".toList]
  else if key == "gemini_api_key_not_configured".toList then
    some [.lit "The AI service key is not configured.".toList]
  else if key == "gemini_no_content_to_send".toList then
    some [.lit "There is nothing to send.".toList]
  else if key == "gemini_no_valid_response".toList then
    some [.lit "No valid response was received.".toList]
  else if key == "gemini_empty_response".toList then
    some [.lit "The model returned an empty response.".toList]
  else if key == "error_processing_audio_data".toList then
    some [.lit "The audio data could not be processed.".toList]
  else if key == "error_determining_audio_mime".toList then
    some [.lit "The audio type could not be determined.".toList]
  else if key == "error_processing_document_data".toList then
    some [.lit "The document data could not be processed.".toList]
  else if key == "chat_limit_reached".toList then
    some [.lit "Daily limit of ".toList, .ph "limit_count".toList, .lit " chats reached.".toList]
  else if key == "default_image_prompt".toList then
    some [.lit "Describe this image.".toList]
  else if key == "gemini_processing".toList then
    some [.lit "Processing...".toList]
  else if key == "processing_image_prompt".toList then
    some [.lit "Looking at the image...".toList]
  else if key == "processing_audio_prompt".toList then
    some [.lit "Listening to the audio...".toList]
  else if key == "processing_document_prompt".toList then
    some [.lit "Reading the document...".toList]
  else if key == "gemini_error_sending_response".toList then
    some [.lit "The response could not be delivered.".toList]
  else
    none

/-- Modelled from the spec: the loaded `_translations` dictionary with the
English locale present (the locale files are not under src/). -/
def modelTable : LangTable := fun lang =>
  if lang == "en".toList then some modelEnTemplates else none

/-- The raw string `get_gemini_response` returns when the provider blocks a
request (src/core/gemini.py, line 152): the `gemini_request_blocked`
template rendered with the actual reasons text. -/
def blockedResponseRaw (reasons : List Char) : List Char :=
  get_translation modelTable "en".toList "gemini_request_blocked".toList
    (some "en".toList) false [("reasons".toList, reasons)]

/-- C2 (code bug): the raw response that `get_gemini_response` actually
produces for a blocked request — the rendered `gemini_request_blocked`
template with the real reasons text substituted — is NOT classified as a
domain error, because `process_ai_interaction` renders its comparison set
with the dummy placeholder value `"..."`; only the `"..."`-rendered string
matches.  The claim says the really-rendered string classifies as
DomainError; the code classifies it as Success. -/
theorem classifier_C2_code_bug :
    is_error_response modelTable "en".toList "en".toList
        (blockedResponseRaw "Alasan pemblokiran: SAFETY".toList) = false ∧
    is_error_response modelTable "en".toList "en".toList
        (blockedResponseRaw "...".toList) = true := by
  constructor
  · rfl
  · rfl

/-! ### Daily chat limit (src/core/database.py, lines 193-287) -/

/-- Outcome of one Supabase write operation: success, an error reported in
the response's `error` field, or a raised exception. -/
inductive DbOpResult where
  | ok
  | errField
  | raised
deriving DecidableEq

/-- Environment of `check_and_update_chat_limit`: feature flag, client
initialization, and the behaviour of the read/upsert/update calls. -/
structure QuotaEnv where
  featDatabase : Bool
  clientInit : Bool
  readRaises : Bool
  upsertResult : DbOpResult
  updateResult : DbOpResult

/-- The `user_preferences` row fields read by the quota check.  Dates are
modelled as integer day numbers; `none` models a SQL NULL
`last_chat_reset_date`. -/
structure UserPrefRow where
  daily_chat_count : Int
  last_chat_reset_date : Option Int
deriving DecidableEq

/-- `check_and_update_chat_limit` from src/core/database.py: given today's
date, the daily limit, and the stored row (`none` = user not in the table),
return `(can_chat, remaining_chats)` and the row as stored afterwards.

Paths modelled from the source: client/feature guard (lines 194-196); a
raised read exception caught by the outer handler (285-287); the new-user
upsert with its explicit fail-open on error (224-241); the NULL reset date,
whose `None < today` comparison raises `TypeError` and is caught by the
outer handler; the new-day reset (247-255); the same-day increment or
rejection (256-266); and the update whose `error` field is ignored
(268-279) but whose raised exception falls to the outer handler. -/
def check_and_update_chat_limit (env : QuotaEnv) (today dailyLimit : Int)
    (db : Option UserPrefRow) : (Bool × Int) × Option UserPrefRow :=
  if !env.clientInit || !env.featDatabase then ((true, dailyLimit), db)
  else if env.readRaises then ((true, dailyLimit), db)
  else
    match db with
    | none =>
      match env.upsertResult with
      | .ok => ((true, dailyLimit - 1), some ⟨1, some today⟩)
      | .errField => ((true, dailyLimit), db)
      | .raised => ((true, dailyLimit), db)
    | some row =>
      match row.last_chat_reset_date with
      | none => ((true, dailyLimit), db)
      | some lastReset =>
        if lastReset < today then
          match env.updateResult with
          | .raised => ((true, dailyLimit), db)
          | .errField => ((true, dailyLimit - 1), db)
          | .ok => ((true, dailyLimit - 1), some ⟨1, some today⟩)
        else
          if row.daily_chat_count < dailyLimit then
            let nc := row.daily_chat_count + 1
            match env.updateResult with
            | .raised => ((true, dailyLimit), db)
            | .errField => ((true, dailyLimit - nc), db)
            | .ok => ((true, dailyLimit - nc), some ⟨nc, row.last_chat_reset_date⟩)
          else
            ((false, 0), db)

/-- A fully healthy database environment. -/
def quotaEnvOk : QuotaEnv :=
  { featDatabase := true, clientInit := true, readRaises := false,
    upsertResult := .ok, updateResult := .ok }

/-- C8: with `dailyLimit = 20` and a stored count of 20 whose reset date is
today, the next call returns `(false, 0)` and leaves the stored row
unchanged; a call on a later calendar day (`today + d + 1`) resets the
stored count to 1, updates the reset date, and returns allowed with
`remaining = 19`. -/
theorem check_and_update_chat_limit_C8 (today : Int) (d : Nat) :
    check_and_update_chat_limit quotaEnvOk today 20 (some ⟨20, some today⟩) =
      ((false, 0), some ⟨20, some today⟩) ∧
    check_and_update_chat_limit quotaEnvOk (today + d + 1) 20 (some ⟨20, some today⟩) =
      ((true, 19), some ⟨1, some (today + d + 1)⟩) := by
  constructor
  · simp [check_and_update_chat_limit, quotaEnvOk]
  · have hlt : today < today + (d : Int) + 1 := by omega
    simp [check_and_update_chat_limit, quotaEnvOk, hlt]

/-- C10: quota enforcement fails open.  Whenever the database feature is
disabled, the client is uninitialized, the read raises, the initial upsert
for a new user fails (error field or exception), the stored reset date is
NULL (whose comparison raises), or the counter update raises, the call
returns `(allowed := true, remaining := dailyLimit)` and the stored row is
unchanged. -/
theorem check_and_update_chat_limit_C10 (env : QuotaEnv) (today dailyLimit : Int)
    (db : Option UserPrefRow) (row : UserPrefRow) :
    (check_and_update_chat_limit { env with featDatabase := false } today dailyLimit db =
      ((true, dailyLimit), db)) ∧
    (check_and_update_chat_limit { env with clientInit := false } today dailyLimit db =
      ((true, dailyLimit), db)) ∧
    (check_and_update_chat_limit { env with clientInit := true, featDatabase := true, readRaises := true } today dailyLimit db = ((true, dailyLimit), db)) ∧
    (check_and_update_chat_limit { env with clientInit := true, featDatabase := true, readRaises := false, upsertResult := .errField } today dailyLimit none =
      ((true, dailyLimit), none)) ∧
    (check_and_update_chat_limit { env with clientInit := true, featDatabase := true, readRaises := false, upsertResult := .raised } today dailyLimit none =
      ((true, dailyLimit), none)) ∧
    (check_and_update_chat_limit { env with clientInit := true, featDatabase := true, readRaises := false } today dailyLimit
        (some { row with last_chat_reset_date := none }) =
      ((true, dailyLimit), some { row with last_chat_reset_date := none })) ∧
    (∀ lastReset : Int, lastReset < today →
      check_and_update_chat_limit { env with clientInit := true, featDatabase := true, readRaises := false, updateResult := .raised } today dailyLimit
          (some { row with last_chat_reset_date := some lastReset }) =
        ((true, dailyLimit), some { row with last_chat_reset_date := some lastReset })) := by
  refine ⟨?_, ?_, ?_, ?_, ?_, ?_, ?_⟩
  · simp [check_and_update_chat_limit]
  · simp [check_and_update_chat_limit]
  · simp [check_and_update_chat_limit]
  · simp [check_and_update_chat_limit]
  · simp [check_and_update_chat_limit]
  · simp [check_and_update_chat_limit]
  · intro lastReset hlt
    simp [check_and_update_chat_limit, hlt]

/-- Witness for C10: the update-exception scenario at concrete values. -/
theorem check_and_update_chat_limit_C10_witness :
    check_and_update_chat_limit { quotaEnvOk with updateResult := .raised } 1 20
        (some { daily_chat_count := 5, last_chat_reset_date := some 0 }) =
      ((true, 20), some { daily_chat_count := 5, last_chat_reset_date := some 0 }) :=
  (check_and_update_chat_limit_C10 quotaEnvOk 1 20 none
      { daily_chat_count := 5, last_chat_reset_date := some 0 }).2.2.2.2.2.2 0 (by norm_num)

/-! ### Chunked delivery (src/bot/handlers.py, lines 252-305) -/

/-- Result of one outbound send attempt: success, a `TelegramBadRequest`
(formatting rejection), or any other exception. -/
inductive Outcome where
  | ok
  | badRequest
  | err
deriving DecidableEq

/-- Parse mode of a send attempt: Markdown or plain text. -/
inductive Mode where
  | markdown
  | plain
deriving DecidableEq

/-- Observable effects of `process_ai_interaction` and its delivery loop. -/
inductive Event where
  | reply (text : List Char) (plain : Bool)
  | answer (text : List Char) (plain : Bool)
  | attempt (m : Mode) (asReply : Bool) (text : List Char) (out : Outcome)
  | sleep
  | processingSent (text : List Char)
  | processingDeleted
  | providerCall (prompt : Option (List Char)) (histLen : Nat)
  | historyAdd (role : List Char) (content : List Char)
deriving DecidableEq

/-- The per-chunk delivery loop of `send_text_response_possibly_chunked`
(src/bot/handlers.py, lines 257-287).  `tr n` is the transport's response to
the n-th send attempt; `firstIsReply` is whether the triggering message was
not a reply to the bot (so chunk 0 is sent with `message.reply`); `first`
tracks `i == 0`; blank-after-balancing chunks are skipped; a markdown
rejection triggers one plain retry with the original chunk text; a failure
after that (or a non-formatting failure) emits the delivery-error notice
`errNotice` via `message.answer` and aborts the remaining chunks; a 0.5 s
sleep separates successfully markdown-sent chunks. -/
def deliverGo (tr : Nat → Outcome) (firstIsReply : Bool) (errNotice : List Char) :
    List (List Char) → Bool → Nat → List Event
  | [], _, _ => []
  | c :: rest, first, k =>
    let c2 := ensure_valid_markdown c
    if (pyStrip c2).isEmpty then deliverGo tr firstIsReply errNotice rest false k
    else
      let asR := first && firstIsReply
      match tr k with
      | .ok =>
        if rest.isEmpty then
          .attempt .markdown asR c2 .ok :: deliverGo tr firstIsReply errNotice rest false (k + 1)
        else
          .attempt .markdown asR c2 .ok :: .sleep ::
            deliverGo tr firstIsReply errNotice rest false (k + 1)
      | .badRequest =>
        match tr (k + 1) with
        | .ok =>
          .attempt .markdown asR c2 .badRequest :: .attempt .plain asR c .ok ::
            deliverGo tr firstIsReply errNotice rest false (k + 2)
        | o => [.attempt .markdown asR c2 .badRequest, .attempt .plain asR c o,
                .answer errNotice false]
      | .err => [.attempt .markdown asR c2 .err, .answer errNotice false]

/-- `TELEGRAM_MAX_MESSAGE_LENGTH` from src/core/config.py (line 51). -/
def TELEGRAM_MAX_MESSAGE_LENGTH : Nat := 4000

/-- `send_text_response_possibly_chunked` from src/bot/handlers.py (lines
252-305), with the transport ceiling as the `maxLen` argument (the source
applies the constant `TELEGRAM_MAX_MESSAGE_LENGTH`).  `emptyNotice` and
`errNotice` are the rendered `gemini_empty_response` and
`gemini_error_sending_response` texts. -/
def send_text_response_possibly_chunked (tr : Nat → Outcome) (firstIsReply : Bool)
    (emptyNotice errNotice : List Char) (maxLen : Nat) (text : List Char) : List Event :=
  if maxLen < text.length then
    deliverGo tr firstIsReply errNotice (split_long_message text maxLen) true 0
  else
    let t2 := ensure_valid_markdown text
    if (pyStrip t2).isEmpty then [.reply emptyNotice true]
    else
      match tr 0 with
      | .ok => [.attempt .markdown true t2 .ok]
      | .badRequest =>
        match tr 1 with
        | .ok => [.attempt .markdown true t2 .badRequest, .attempt .plain true text .ok]
        | o => [.attempt .markdown true t2 .badRequest, .attempt .plain true text o,
                .reply errNotice false]
      | .err => [.attempt .markdown true t2 .err, .reply errNotice false]

/-- C5, counterexample input: a response whose first split chunk is entirely
whitespace. -/
def c5Text : List Char := "   ab".toList

/-- C5 counterexample: the claim says each chunk of the delivery loop is
first sent with rich formatting; but for the text `"   ab"` with ceiling 2
the splitter emits the chunk `"  "`, which the loop skips entirely (it is
blank after markdown balancing) — the trace holds exactly one attempt, for
the other chunk, so the whitespace-only chunk is never sent. -/
theorem delivery_C5_counterexample :
    split_long_message c5Text 2 = ["  ".toList, "ab".toList] ∧
    send_text_response_possibly_chunked (fun _ => .ok) true [] [] 2 c5Text =
      [.attempt .markdown false "ab".toList .ok] := by
  constructor
  · rfl
  · rfl

/-- The delivery discipline claimed by C5, as a grammar on traces: chunks are
attempted with markdown first; a plain attempt occurs only immediately after
a markdown formatting-rejection, exactly once, carrying the same chunk's
original text; after a failure of the plain retry (or a non-formatting
failure of the markdown attempt) exactly one delivery-error notice follows
and the trace ends. -/
inductive DeliveryOk (errNotice : List Char) : List Event → Prop
  | nil : DeliveryOk errNotice []
  | mdOk (b : Bool) (c : List Char) (rest : List Event) :
      DeliveryOk errNotice rest →
      DeliveryOk errNotice (.attempt .markdown b c .ok :: rest)
  | mdOkSleep (b : Bool) (c : List Char) (rest : List Event) :
      DeliveryOk errNotice rest →
      DeliveryOk errNotice (.attempt .markdown b c .ok :: .sleep :: rest)
  | retryOk (b : Bool) (c : List Char) (rest : List Event) :
      DeliveryOk errNotice rest →
      DeliveryOk errNotice
        (.attempt .markdown b (ensure_valid_markdown c) .badRequest ::
          .attempt .plain b c .ok :: rest)
  | retryFail (b : Bool) (c : List Char) (o : Outcome) :
      o ≠ .ok →
      DeliveryOk errNotice
        [.attempt .markdown b (ensure_valid_markdown c) .badRequest,
         .attempt .plain b c o, .answer errNotice false]
  | mdErr (b : Bool) (c : List Char) :
      DeliveryOk errNotice [.attempt .markdown b c .err, .answer errNotice false]

/-- The markdown texts attempted in a trace, in order. -/
def mdAttemptTexts (tra : List Event) : List (List Char) :=
  tra.filterMap fun e =>
    match e with
    | .attempt .markdown _ t _ => some t
    | _ => none

theorem deliverGo_grammar (tr : Nat → Outcome) (fr : Bool) (errNotice : List Char) :
    ∀ (chunks : List (List Char)) (first : Bool) (k : Nat),
      DeliveryOk errNotice (deliverGo tr fr errNotice chunks first k) := by
  intro chunks
  induction chunks with
  | nil => intro first k; exact DeliveryOk.nil
  | cons c rest ih =>
    intro first k
    rw [deliverGo]
    by_cases hblank : (pyStrip (ensure_valid_markdown c)).isEmpty
    · simp only [hblank, if_pos]
      exact ih false k
    · simp only [hblank]
      rw [if_neg (by simp [hblank])]
      cases hk : tr k with
      | ok =>
        by_cases hrest : rest.isEmpty
        · simp only [hrest, if_pos]
          exact DeliveryOk.mdOk _ _ _ (ih false (k + 1))
        · simp only [hrest]
          rw [if_neg (by simp [hrest])]
          exact DeliveryOk.mdOkSleep _ _ _ (ih false (k + 1))
      | badRequest =>
        cases hk2 : tr (k + 1) with
        | ok => exact DeliveryOk.retryOk _ _ _ (ih false (k + 2))
        | badRequest => exact DeliveryOk.retryFail _ _ _ (by simp)
        | err => exact DeliveryOk.retryFail _ _ _ (by simp)
      | err => exact DeliveryOk.mdErr _ _

theorem deliverGo_allok_texts (tr : Nat → Outcome) (fr : Bool) (errNotice : List Char)
    (hok : ∀ n, tr n = .ok) :
    ∀ (chunks : List (List Char)) (first : Bool) (k : Nat),
      mdAttemptTexts (deliverGo tr fr errNotice chunks first k) =
        (chunks.filter (fun c => !(pyStrip (ensure_valid_markdown c)).isEmpty)).map
          ensure_valid_markdown := by
  intro chunks
  induction chunks with
  | nil => intro first k; rfl
  | cons c rest ih =>
    intro first k
    rw [deliverGo]
    by_cases hblank : (pyStrip (ensure_valid_markdown c)).isEmpty
    · simp only [hblank, if_pos]
      rw [List.filter_cons_of_neg (by simp [hblank])]
      exact ih false k
    · simp only [hblank]
      rw [if_neg (by simp [hblank])]
      rw [hok k]
      rw [List.filter_cons_of_pos (by simp [hblank])]
      by_cases hrest : rest.isEmpty
      · simp only [hrest, if_pos]
        simp only [mdAttemptTexts, List.filterMap_cons, List.map_cons]
        rw [← mdAttemptTexts]
        rw [ih false (k + 1)]
      · simp only [hrest]
        rw [if_neg (by simp [hrest])]
        simp only [mdAttemptTexts, List.filterMap_cons, List.map_cons]
        rw [← mdAttemptTexts]
        rw [ih false (k + 1)]

/-- C5, amended: each chunk that is non-blank after markdown balancing is
first attempted with rich formatting (whitespace-only chunks are skipped);
on a formatting rejection the same chunk is retried exactly once in plain
text; if a chunk fails even after the plain-text fallback, exactly one
delivery-error notice is sent and no subsequent chunk is sent
(`DeliveryOk`); when the transport accepts everything, the markdown attempts
are exactly the balanced non-blank chunks in order. -/
theorem delivery_C5_amended (tr : Nat → Outcome) (fr : Bool) (errNotice : List Char)
    (chunks : List (List Char)) (first : Bool) (k : Nat) :
    DeliveryOk errNotice (deliverGo tr fr errNotice chunks first k) ∧
    ((∀ n, tr n = .ok) →
      mdAttemptTexts (deliverGo tr fr errNotice chunks first k) =
        (chunks.filter (fun c => !(pyStrip (ensure_valid_markdown c)).isEmpty)).map
          ensure_valid_markdown) :=
  ⟨deliverGo_grammar tr fr errNotice chunks first k,
   fun hok => deliverGo_allok_texts tr fr errNotice hok chunks first k⟩

/-- Witness for the amended C5 at a concrete chunk list and transport. -/
theorem delivery_C5_amended_witness :
    DeliveryOk [] (deliverGo (fun _ => .ok) true [] ["ab".toList, "  ".toList, "*x".toList] true 0) ∧
    ((∀ n, (fun (_ : Nat) => Outcome.ok) n = .ok) →
      mdAttemptTexts (deliverGo (fun _ => .ok) true [] ["ab".toList, "  ".toList, "*x".toList] true 0) =
        ((["ab".toList, "  ".toList, "*x".toList].filter
            (fun c => !(pyStrip (ensure_valid_markdown c)).isEmpty)).map
          ensure_valid_markdown)) :=
  delivery_C5_amended (fun _ => .ok) true [] ["ab".toList, "  ".toList, "*x".toList] true 0

/-! ### The orchestrator: process_ai_interaction (src/bot/handlers.py, lines 307-441) -/

/-- Python truthiness of an optional string (`None` and `""` are falsy). -/
def pyTruthy : Option (List Char) → Bool
  | some s => !s.isEmpty
  | none => false

/-- Environment of one `process_ai_interaction` call: feature flags from
src/core/config.py, the quota answer, the translation table, the request
content, the stored history rows, the provider's raw response, and the
transport behaviour.  Media payloads are opaque identifiers; `images = none`
models the `None` argument and `some []` an empty list (both falsy). -/
structure OrchEnv where
  featDailyLimit : Bool
  featDatabase : Bool
  featGemini : Bool
  featHistory : Bool
  featImage : Bool
  featAudio : Bool
  featDoc : Bool
  dailyLimit : Nat
  quotaAllowed : Bool
  table : LangTable
  defLang : List Char
  lang : List Char
  promptText : Option (List Char)
  images : Option (List Nat)
  audio : Option Nat
  doc : Option Nat
  histRows : List (List Char × List Char)
  providerResp : List Char
  processingOk : Bool
  transport : Nat → Outcome
  firstIsReply : Bool

/-- Rendering helper: `_(key, user_lang, ...)` with this environment's table
and languages. -/
def trE (env : OrchEnv) (key : List Char) (dflt : Bool) (subst : Subst) : List Char :=
  get_translation env.table env.defLang key (some env.lang) dflt subst

/-- `bool(image_data_list_for_input)`. -/
def hasImages (env : OrchEnv) : Bool :=
  match env.images with
  | some l => !l.isEmpty
  | none => false

/-- `actual_prompt_text_for_gemini` (src/bot/handlers.py, lines 333-336):
the prompt when non-blank, otherwise the default image prompt when images
are being understood without a prompt. -/
def actualPrompt (env : OrchEnv) : Option (List Char) :=
  let p0 : Option (List Char) :=
    match env.promptText with
    | some p => if !p.isEmpty && !(pyStrip p).isEmpty then some p else none
    | none => none
  if hasImages env && env.featImage && p0.isNone then
    some (trE env "default_image_prompt".toList false [])
  else p0

def hasImageInput (env : OrchEnv) : Bool := hasImages env && env.featImage

def hasAudioInput (env : OrchEnv) : Bool := env.audio.isSome && env.featAudio

def hasDocInput (env : OrchEnv) : Bool := env.doc.isSome && env.featDoc

/-- The content test of src/bot/handlers.py line 343. -/
def hasAnyContent (env : OrchEnv) : Bool :=
  (actualPrompt env).isSome || hasImageInput env || hasAudioInput env || hasDocInput env

/-- The processing-notice key chosen by precedence document > audio > image >
plain text (src/bot/handlers.py, lines 347-353). -/
def processingKeyOf (env : OrchEnv) : List Char :=
  if hasDocInput env then "processing_document_prompt".toList
  else if hasAudioInput env then "processing_audio_prompt".toList
  else if hasImageInput env then "processing_image_prompt".toList
  else "gemini_processing".toList

/-- The processing-notice text with the re-fetch fallback of
src/bot/handlers.py lines 355-362 (when the key has no translation, a
hard-coded thinking notice is used). -/
def processingTextOf (env : OrchEnv) : List Char :=
  let key := processingKeyOf env
  let pts := trE env key true []
  if pts = key then
    let pts2 := trE env key true []
    if ("TR_MISSING".toList.isPrefixOf pts2) || pts2 = key then "🧠 Thinking...".toList
    else pts2
  else pts

/-- Number of history turns handed to the provider (src/bot/handlers.py,
lines 368-372). -/
def histLenOf (env : OrchEnv) : Nat :=
  if env.featHistory && env.featDatabase then env.histRows.length else 0

/-- `prompt_saved_to_history` (src/bot/handlers.py, lines 425-435): the
user-turn content, synthesized with a media placeholder when media was
attached. -/
def promptSavedToHistory (env : OrchEnv) : Option (List Char) :=
  if hasImages env && env.featImage then
    let base :=
      if pyTruthy env.promptText then env.promptText.getD []
      else trE env "default_image_prompt".toList false []
    some (base ++ " [".toList ++ (Nat.repr (env.images.getD []).length).toList ++
      " image(s) processed]".toList)
  else if env.audio.isSome && env.featAudio then
    let base :=
      if pyTruthy env.promptText then env.promptText.getD []
      else trE env "default_audio_prompt_describe".toList false []
    some (base ++ " [audio processed]".toList)
  else if env.doc.isSome && env.featDoc then
    let base :=
      if pyTruthy env.promptText then env.promptText.getD []
      else trE env "default_document_prompt_summarize".toList false []
    some (base ++ " [document processed]".toList)
  else actualPrompt env

/-- The history writes of src/bot/handlers.py lines 424-439. -/
def historyEvents (env : OrchEnv) : List Event :=
  if env.featHistory && env.featDatabase then
    (match promptSavedToHistory env with
     | some p => if !p.isEmpty then [.historyAdd "user".toList p] else []
     | none => []) ++
    (if !env.providerResp.isEmpty then [.historyAdd "model".toList env.providerResp] else [])
  else []

/-- `process_ai_interaction` from src/bot/handlers.py (lines 307-441) as a
trace of observable events: the quota gate, the feature gate, the
no-content gate, the best-effort processing notice, the provider call, the
processing-notice deletion, the exact-match error classification with its
verbatim plain reply, the history writes, and the chunked delivery. -/
def process_ai_interaction (env : OrchEnv) : List Event :=
  if env.featDailyLimit && env.featDatabase && !env.quotaAllowed then
    [.reply (trE env "chat_limit_reached".toList false
      [("limit_count".toList, (Nat.repr env.dailyLimit).toList)]) false]
  else if !env.featGemini then
    [.reply (trE env "ai_feature_disabled".toList false []) false]
  else if !(hasAnyContent env) then
    [.reply (trE env "gemini_no_content_to_send".toList false []) true]
  else
    (if env.processingOk then [.processingSent (processingTextOf env)] else []) ++
    [.providerCall (actualPrompt env) (histLenOf env)] ++
    (if env.processingOk then [.processingDeleted] else []) ++
    (if is_error_response env.table env.defLang env.lang env.providerResp then
      [.reply env.providerResp true]
    else
      historyEvents env ++
      send_text_response_possibly_chunked env.transport env.firstIsReply
        (trE env "gemini_empty_response".toList false [])
        (trE env "gemini_error_sending_response".toList false [])
        TELEGRAM_MAX_MESSAGE_LENGTH env.providerResp)

/-- C4: when the daily-limit and database features are enabled and quota
returns allowed = false, `process_ai_interaction` emits exactly one
localized limit-reached notice and nothing else: in particular it does not
invoke the provider and appends no conversation-history row. -/
theorem process_ai_interaction_C4 (env : OrchEnv)
    (h1 : env.featDailyLimit = true) (h2 : env.featDatabase = true)
    (h3 : env.quotaAllowed = false) :
    process_ai_interaction env =
      [.reply (trE env "chat_limit_reached".toList false
        [("limit_count".toList, (Nat.repr env.dailyLimit).toList)]) false] ∧
    (∀ p n, Event.providerCall p n ∉ process_ai_interaction env) ∧
    (∀ r c, Event.historyAdd r c ∉ process_ai_interaction env) := by
  have htrace : process_ai_interaction env =
      [.reply (trE env "chat_limit_reached".toList false
        [("limit_count".toList, (Nat.repr env.dailyLimit).toList)]) false] := by
    unfold process_ai_interaction
    rw [h1, h2, h3]
    simp
  refine ⟨htrace, ?_, ?_⟩
  · intro p n hmem
    rw [htrace] at hmem
    simp at hmem
  · intro r c hmem
    rw [htrace] at hmem
    simp at hmem

/-- A concrete environment hitting the quota rejection. -/
def envC4 : OrchEnv where
  featDailyLimit := true
  featDatabase := true
  featGemini := true
  featHistory := true
  featImage := true
  featAudio := true
  featDoc := true
  dailyLimit := 20
  quotaAllowed := false
  table := modelTable
  defLang := "en".toList
  lang := "en".toList
  promptText := some "hello".toList
  images := none
  audio := none
  doc := none
  histRows := []
  providerResp := "fine".toList
  processingOk := true
  transport := fun _ => .ok
  firstIsReply := true

/-- Witness for C4 at the concrete environment. -/
theorem process_ai_interaction_C4_witness :
    process_ai_interaction envC4 =
      [.reply (trE envC4 "chat_limit_reached".toList false
        [("limit_count".toList, (Nat.repr envC4.dailyLimit).toList)]) false] ∧
    (∀ p n, Event.providerCall p n ∉ process_ai_interaction envC4) ∧
    (∀ r c, Event.historyAdd r c ∉ process_ai_interaction envC4) :=
  process_ai_interaction_C4 envC4 rfl rfl rfl

/-- C9: when the raw provider response is classified as a domain error, the
orchestrator replies with that text verbatim in plain mode and stops: the
trace ends with that reply, no history row of either role is appended, and
no chunk delivery is attempted. -/
theorem process_ai_interaction_C9 (env : OrchEnv)
    (hq : ¬(env.featDailyLimit = true ∧ env.featDatabase = true ∧ env.quotaAllowed = false))
    (hg : env.featGemini = true)
    (hc : hasAnyContent env = true)
    (he : is_error_response env.table env.defLang env.lang env.providerResp = true) :
    process_ai_interaction env =
      (if env.processingOk then [.processingSent (processingTextOf env)] else []) ++
      [.providerCall (actualPrompt env) (histLenOf env)] ++
      (if env.processingOk then [.processingDeleted] else []) ++
      [.reply env.providerResp true] ∧
    (∀ r c, Event.historyAdd r c ∉ process_ai_interaction env) ∧
    (∀ m b t o, Event.attempt m b t o ∉ process_ai_interaction env) ∧
    (process_ai_interaction env).getLast? = some (.reply env.providerResp true) := by
  have hqb : (env.featDailyLimit && env.featDatabase && !env.quotaAllowed) = false := by
    cases hdl : env.featDailyLimit <;> cases hdb : env.featDatabase <;>
      cases hqa : env.quotaAllowed <;> simp_all
  have htrace : process_ai_interaction env =
      (if env.processingOk then [.processingSent (processingTextOf env)] else []) ++
      [.providerCall (actualPrompt env) (histLenOf env)] ++
      (if env.processingOk then [.processingDeleted] else []) ++
      [.reply env.providerResp true] := by
    unfold process_ai_interaction
    rw [hqb, hg, hc, he]
    simp
  refine ⟨htrace, ?_, ?_, ?_⟩
  · intro r c hmem
    rw [htrace] at hmem
    cases hp : env.processingOk <;> rw [hp] at hmem <;> simp at hmem
  · intro m b t o hmem
    rw [htrace] at hmem
    cases hp : env.processingOk <;> rw [hp] at hmem <;> simp at hmem
  · rw [htrace]
    cases hp : env.processingOk <;> simp

/-- A concrete environment in which the provider response is a rendered
error template (the dummy-rendered blocked message, which the classifier
does match). -/
def envC9 : OrchEnv where
  featDailyLimit := true
  featDatabase := true
  featGemini := true
  featHistory := true
  featImage := true
  featAudio := true
  featDoc := true
  dailyLimit := 20
  quotaAllowed := true
  table := modelTable
  defLang := "en".toList
  lang := "en".toList
  promptText := some "hello".toList
  images := none
  audio := none
  doc := none
  histRows := []
  providerResp := blockedResponseRaw "...".toList
  processingOk := true
  transport := fun _ => .ok
  firstIsReply := true

/-- Witness for C9 at the concrete environment. -/
theorem process_ai_interaction_C9_witness :
    process_ai_interaction envC9 =
      (if envC9.processingOk then [.processingSent (processingTextOf envC9)] else []) ++
      [.providerCall (actualPrompt envC9) (histLenOf envC9)] ++
      (if envC9.processingOk then [.processingDeleted] else []) ++
      [.reply envC9.providerResp true] ∧
    (∀ r c, Event.historyAdd r c ∉ process_ai_interaction envC9) ∧
    (∀ m b t o, Event.attempt m b t o ∉ process_ai_interaction envC9) ∧
    (process_ai_interaction envC9).getLast? = some (.reply envC9.providerResp true) :=
  process_ai_interaction_C9 envC9 (by decide) rfl (by decide) (by rfl)

/-! ### Album processing (src/bot/handlers.py, lines 589-664) -/

/-- One message buffered in an album: an optional photo (its file id) and an
optional caption. -/
structure AlbumMsg where
  photoId : Option Nat
  caption : Option (List Char)
deriving DecidableEq

/-- Observable effects of the album processing body. -/
inductive AlbumEvent where
  | notice (text : List Char)
  | errorReply (text : List Char)
  | handOff (images : List (List Char × List Char)) (caption : Option (List Char))
deriving DecidableEq

/-- The body of `process_complete_album` after the cache pop and validity
checks (src/bot/handlers.py, lines 604-664): pick the first non-empty
caption, keep the photo-bearing messages, send one truncation notice and cap
at `MAX_IMAGES_PER_ALBUM` when over the limit, download the capped list
(`dl` maps a photo id to its bytes and MIME type, `none` = download
failure, failures dropped), report when nothing was downloaded, otherwise
hand the batch to `process_ai_interaction` (modelled as the `handOff`
event).  `noticeOk` models whether sending the truncation notice succeeds
(it is attempted inside try/except). -/
def process_complete_album_body (tbl : LangTable) (defLang lang : List Char)
    (maxImages : Nat) (noticeOk : Bool) (dl : Nat → Option (List Char × List Char))
    (msgs : List AlbumMsg) : List AlbumEvent :=
  let albumCaption : Option (List Char) :=
    msgs.findSome? (fun m =>
      match m.caption with
      | some c => if !c.isEmpty then some (pyStrip c) else none
      | none => none)
  let images := msgs.filter (fun m => m.photoId.isSome)
  let origCount := images.length
  let notified := decide (origCount > maxImages) && noticeOk
  let noticeEvents : List AlbumEvent :=
    if decide (origCount > maxImages) && noticeOk then
      [.notice (get_translation tbl defLang "album_image_limit_notice".toList (some lang) false
        [("max_images".toList, (Nat.repr maxImages).toList)])]
    else []
  let capped := if origCount > maxImages then images.take maxImages else images
  let downloaded := capped.filterMap (fun m => m.photoId.bind dl)
  if downloaded.isEmpty then
    if !notified || origCount == 0 then
      noticeEvents ++
        [.errorReply (get_translation tbl defLang "error_downloading_image".toList
          (some lang) false [])]
    else noticeEvents
  else
    noticeEvents ++ [.handOff downloaded albumCaption]

/-- C7: when a flushed album contains more than `maxImages` qualifying
images (and the notice send succeeds), the trace starts with exactly one
truncation notice, and what follows is exactly the hand-off of the
downloads of the FIRST `maxImages` images (or nothing at all when every
download of that capped list failed) — the excess images are dropped and
never downloaded or handed over. -/
theorem process_complete_album_C7 (tbl : LangTable) (defLang lang : List Char)
    (maxImages : Nat) (dl : Nat → Option (List Char × List Char)) (msgs : List AlbumMsg)
    (hcount : maxImages < (msgs.filter (fun m => m.photoId.isSome)).length) :
    process_complete_album_body tbl defLang lang maxImages true dl msgs =
      .notice (get_translation tbl defLang "album_image_limit_notice".toList (some lang) false
          [("max_images".toList, (Nat.repr maxImages).toList)]) ::
        (let downloaded := ((msgs.filter (fun m => m.photoId.isSome)).take maxImages).filterMap
            (fun m => m.photoId.bind dl)
         if downloaded.isEmpty then []
         else [.handOff downloaded
            (msgs.findSome? (fun m =>
              match m.caption with
              | some c => if !c.isEmpty then some (pyStrip c) else none
              | none => none))]) := by
  unfold process_complete_album_body
  have hgt : decide ((msgs.filter (fun m => m.photoId.isSome)).length > maxImages) = true := by
    simp [hcount]
  have hne : ¬((msgs.filter (fun m => m.photoId.isSome)).length = 0) := by omega
  simp only [hgt, Bool.true_and, Bool.and_self, if_pos hcount, gt_iff_lt]
  by_cases hdl : (((msgs.filter (fun m => m.photoId.isSome)).take maxImages).filterMap
      (fun m => m.photoId.bind dl)).isEmpty
  · rw [if_pos hdl]
    simp [hne, hdl]
  · rw [if_neg hdl]
    simp [hdl]

/-- Witness for C7: four photos, cap 2, all downloads succeed. -/
theorem process_complete_album_C7_witness :
    process_complete_album_body modelTable "en".toList "en".toList 2 true
        (fun n => some ((Nat.repr n).toList, "image/jpeg".toList))
        [⟨some 1, some "cap".toList⟩, ⟨some 2, none⟩, ⟨some 3, none⟩, ⟨some 4, none⟩] =
      .notice (get_translation modelTable "en".toList "album_image_limit_notice".toList
          (some "en".toList) false [("max_images".toList, (Nat.repr 2).toList)]) ::
        (let downloaded := (([⟨some 1, some "cap".toList⟩, ⟨some 2, none⟩, ⟨some 3, none⟩,
              ⟨some 4, none⟩] : List AlbumMsg).filter (fun m => m.photoId.isSome)).take 2
            |>.filterMap (fun m => m.photoId.bind
              (fun n => some ((Nat.repr n).toList, "image/jpeg".toList)))
         if downloaded.isEmpty then []
         else [.handOff downloaded
            (([⟨some 1, some "cap".toList⟩, ⟨some 2, none⟩, ⟨some 3, none⟩,
               ⟨some 4, none⟩] : List AlbumMsg).findSome? (fun m =>
              match m.caption with
              | some c => if !c.isEmpty then some (pyStrip c) else none
              | none => none))]) :=
  process_complete_album_C7 modelTable "en".toList "en".toList 2
    (fun n => some ((Nat.repr n).toList, "image/jpeg".toList))
    [⟨some 1, some "cap".toList⟩, ⟨some 2, none⟩, ⟨some 3, none⟩, ⟨some 4, none⟩]
    (by decide)

/-! ### Album debounce aggregation (src/bot/handlers.py, lines 666-687 and 589-592)

`handle_media_album_part` buffers album parts in `media_group_cache`,
cancelling the entry's pending timer task and installing a new one on every
arrival; `process_complete_album` sleeps `ALBUM_PROCESSING_TIMEOUT` and then
pops the entry and flushes it.  The asyncio timers are modelled as a timed
transition system for one group key: a submission first lets a due timer
fire (the flush that would have happened before this arrival), then appends
the item, cancels the current timer and installs a fresh one firing `T`
later.  Every timer ever created is kept in `timers`, newest first, with its
creation, firing and cancellation instants, so that the at-most-one-live-
timer invariant is a statement about the model, not an artefact of it. -/

/-- `ALBUM_PROCESSING_TIMEOUT` is 2.5 time units; time is modelled in tenths
(so the debounce duration is the parameter `T`, nominally 25). -/
structure Submission where
  time : Nat
  isPhoto : Bool
  ident : Nat
deriving DecidableEq

/-- A debounce timer task: when it was created, when it fires (creation +
`T`), and when it was cancelled (if ever). -/
structure TimerRec where
  createdAt : Nat
  firesAt : Nat
  cancelledAt : Option Nat
deriving DecidableEq

/-- Aggregator state for one group key: the buffered photo idents (`none` =
no cache entry), the history of all timers created (newest first), and the
flushes that have happened (instant, contents). -/
structure AggState where
  buffer : Option (List Nat)
  timers : List TimerRec
  flushes : List (Nat × List Nat)
deriving DecidableEq

/-- Is timer `tm` live (created, not yet fired, not cancelled) at instant
`v`? -/
def liveAt (v : Nat) (tm : TimerRec) : Bool :=
  decide (tm.createdAt ≤ v) && decide (v < tm.firesAt) &&
    (match tm.cancelledAt with
     | some c => decide (v < c)
     | none => true)

/-- Let a due, uncancelled timer fire before instant `now`: the cache entry
is popped and its items flushed (`process_complete_album` after its sleep,
src/bot/handlers.py lines 590-592). -/
def fireDue (now : Nat) (s : AggState) : AggState :=
  match s.buffer, s.timers with
  | some items, tm :: _ =>
    if tm.cancelledAt = none ∧ tm.firesAt ≤ now then
      { buffer := none, timers := s.timers, flushes := s.flushes ++ [(tm.firesAt, items)] }
    else s
  | _, _ => s

/-- Cancel the currently installed (newest) timer at instant `now`
(`media_group_cache[...]["timer"].cancel()`, line 684). -/
def cancelHead (now : Nat) : List TimerRec → List TimerRec
  | [] => []
  | tm :: rest => { tm with cancelledAt := some now } :: rest

/-- One submission (`handle_media_album_part`, lines 666-687): any timer
already due fires first; a fresh cache entry is created when none exists;
only photo parts are appended; the pending timer is cancelled and a new one
installed firing `T` after this arrival. -/
def submitStep (T : Nat) (s : AggState) (sub : Submission) : AggState :=
  let s1 := fireDue sub.time s
  match s1.buffer with
  | none =>
    { buffer := some (if sub.isPhoto then [sub.ident] else []),
      timers := ⟨sub.time, sub.time + T, none⟩ :: s1.timers,
      flushes := s1.flushes }
  | some items =>
    { buffer := some (if sub.isPhoto then items ++ [sub.ident] else items),
      timers := ⟨sub.time, sub.time + T, none⟩ :: cancelHead sub.time s1.timers,
      flushes := s1.flushes }

/-- After the last arrival, the surviving timer fires. -/
def finalFire (s : AggState) : AggState :=
  match s.buffer, s.timers with
  | some items, tm :: _ =>
    if tm.cancelledAt = none then
      { buffer := none, timers := s.timers, flushes := s.flushes ++ [(tm.firesAt, items)] }
    else s
  | _, _ => s

/-- Run a whole burst of submissions for one group key and let the last
timer fire. -/
def runAgg (T : Nat) (subs : List Submission) : AggState :=
  finalFire (subs.foldl (submitStep T) ⟨none, [], []⟩)

/-- The timers older than the current one, for (newest-first) creation
instants `rest`, each cancelled at the creation instant of its successor
(`next` for the head). -/
def timersOlder (T : Nat) (next : Nat) : List Nat → List TimerRec
  | [] => []
  | t :: rest => ⟨t, t + T, some next⟩ :: timersOlder T t rest

/-- The full timer history for (newest-first) creation instants: the newest
timer is uncancelled, each older one was cancelled when its successor was
installed. -/
def timersOfRev (T : Nat) : List Nat → List TimerRec
  | [] => []
  | t :: rest => ⟨t, t + T, none⟩ :: timersOlder T t rest

theorem timersOlder_live (T : Nat) :
    ∀ (rest : List Nat) (next v : Nat),
      List.Chain (fun a b => b ≤ a) next rest →
      (timersOlder T next rest).countP (liveAt v) ≤ 1 ∧
      (∀ tm ∈ timersOlder T next rest, liveAt v tm = true → v < next) := by
  intro rest
  induction rest with
  | nil =>
    intro next v _
    constructor
    · simp [timersOlder]
    · intro tm hm; simp [timersOlder] at hm
  | cons t rest ih =>
    intro next v hchain
    rw [List.chain_cons] at hchain
    obtain ⟨hle, hchain'⟩ := hchain
    obtain ⟨ihc, ihb⟩ := ih t v hchain'
    rw [timersOlder]
    constructor
    · rw [List.countP_cons]
      by_cases hlive : liveAt v ⟨t, t + T, some next⟩ = true
      · obtain ⟨⟨hv1, hv2⟩, hv3⟩ : (t ≤ v ∧ v < t + T) ∧ v < next := by
          simpa [liveAt] using hlive
        have hzero : (timersOlder T t rest).countP (liveAt v) = 0 := by
          rw [List.countP_eq_zero]
          intro tm hm hl
          have := ihb tm hm hl
          omega
        rw [hzero, if_pos hlive]
      · rw [if_neg hlive]
        omega
    · intro tm hm hl
      rcases List.mem_cons.mp hm with hhd | htl
      · subst hhd
        obtain ⟨⟨hv1, hv2⟩, hv3⟩ : (t ≤ v ∧ v < t + T) ∧ v < next := by
          simpa [liveAt] using hl
        exact hv3
      · have := ihb tm htl hl
        omega

theorem timersOfRev_live (T : Nat) (t0 : Nat) (older : List Nat) (v : Nat)
    (hchain : List.Chain (fun a b => b ≤ a) t0 older) :
    (timersOfRev T (t0 :: older)).countP (liveAt v) ≤ 1 := by
  obtain ⟨ihc, ihb⟩ := timersOlder_live T older t0 v hchain
  rw [timersOfRev, List.countP_cons]
  by_cases hlive : liveAt v ⟨t0, t0 + T, none⟩ = true
  · obtain ⟨hv1, hv2⟩ : t0 ≤ v ∧ v < t0 + T := by
      simpa [liveAt] using hlive
    have hzero : (timersOlder T t0 older).countP (liveAt v) = 0 := by
      rw [List.countP_eq_zero]
      intro tm hm hl
      have := ihb tm hm hl
      omega
    rw [hzero, if_pos hlive]
  · rw [if_neg hlive]
    omega

theorem foldl_submit_inv (T : Nat) :
    ∀ (subs : List Submission) (ids : List Nat) (tl : Nat) (older : List Nat),
      List.Chain (fun a b => a ≤ b ∧ b < a + T) tl (subs.map (·.time)) →
      subs.foldl (submitStep T) ⟨some ids, timersOfRev T (tl :: older), []⟩ =
        ⟨some (ids ++ (subs.filter (·.isPhoto)).map (·.ident)),
         timersOfRev T ((subs.map (·.time)).reverse ++ tl :: older), []⟩ := by
  intro subs
  induction subs with
  | nil =>
    intro ids tl older _
    simp
  | cons sub rest ih =>
    intro ids tl older hchain
    rw [List.map_cons, List.chain_cons] at hchain
    obtain ⟨⟨hle, hgap⟩, hchain'⟩ := hchain
    rw [List.foldl_cons]
    have hstep : submitStep T ⟨some ids, timersOfRev T (tl :: older), []⟩ sub =
        ⟨some (ids ++ (if sub.isPhoto then [sub.ident] else [])),
         timersOfRev T (sub.time :: tl :: older), []⟩ := by
      unfold submitStep
      have hfire : fireDue sub.time ⟨some ids, timersOfRev T (tl :: older), []⟩ =
          ⟨some ids, timersOfRev T (tl :: older), []⟩ := by
        rw [timersOfRev]
        unfold fireDue
        dsimp only
        rw [if_neg (by simp; omega)]
      rw [hfire]
      dsimp only
      rw [timersOfRev]
      rw [timersOfRev]
      dsimp [cancelHead, timersOlder]
      by_cases hp : sub.isPhoto <;> simp [hp]
    rw [hstep]
    rw [ih (ids ++ (if sub.isPhoto then [sub.ident] else [])) sub.time (tl :: older) hchain']
    have hids : (ids ++ (if sub.isPhoto then [sub.ident] else [])) ++
        (rest.filter (·.isPhoto)).map (·.ident) =
        ids ++ ((sub :: rest).filter (·.isPhoto)).map (·.ident) := by
      by_cases hp : sub.isPhoto
      · rw [List.filter_cons_of_pos (by simpa using hp)]
        simp [hp]
      · rw [List.filter_cons_of_neg (by simpa using hp)]
        simp [hp]
    have htimes : (rest.map (·.time)).reverse ++ sub.time :: tl :: older =
        ((sub :: rest).map (·.time)).reverse ++ tl :: older := by
      rw [List.map_cons, List.reverse_cons]
      simp
    rw [hids, htimes]

/-- C6: for a burst of submissions for one group key whose times are
nondecreasing with consecutive gaps strictly less than the debounce
duration `T`, all of them photos, exactly one flush occurs; it contains all
submitted items in order, and it fires `T` after the LAST submission.
Moreover, at every instant at most one of the timers ever created is live:
each arrival cancels the pending timer when installing its own. -/
theorem album_debounce_C6 (T : Nat) (hT : 0 < T) (s0 : Submission)
    (rest : List Submission)
    (hchain : List.Chain (fun a b => a ≤ b ∧ b < a + T) s0.time (rest.map (·.time)))
    (hphoto : ∀ s ∈ s0 :: rest, s.isPhoto = true) :
    (runAgg T (s0 :: rest)).flushes =
      [(((s0 :: rest).map (·.time)).getLastD 0 + T, (s0 :: rest).map (·.ident))] ∧
    (∀ v : Nat, ((runAgg T (s0 :: rest)).timers.countP (liveAt v)) ≤ 1) := by
  have hstep0 : submitStep T ⟨none, [], []⟩ s0 =
      ⟨some [s0.ident], timersOfRev T [s0.time], []⟩ := by
    unfold submitStep fireDue
    dsimp only
    rw [hphoto s0 (List.mem_cons_self _ _)]
    simp [timersOfRev, timersOlder]
  have hfold : (s0 :: rest).foldl (submitStep T) ⟨none, [], []⟩ =
      ⟨some ([s0.ident] ++ (rest.filter (·.isPhoto)).map (·.ident)),
       timersOfRev T ((rest.map (·.time)).reverse ++ [s0.time]), []⟩ := by
    rw [List.foldl_cons, hstep0]
    exact foldl_submit_inv T rest [s0.ident] s0.time [] hchain
  have hfilter : rest.filter (·.isPhoto) = rest := by
    apply List.filter_eq_self.mpr
    intro s hs
    simpa using hphoto s (List.mem_cons_of_mem _ hs)
  have hrevall : (rest.map (·.time)).reverse ++ [s0.time] =
      ((s0 :: rest).map (·.time)).reverse := by
    rw [List.map_cons, List.reverse_cons]
  obtain ⟨lt, older, hrev⟩ :
      ∃ lt older, ((s0 :: rest).map (·.time)).reverse = lt :: older := by
    have : ((s0 :: rest).map (·.time)).reverse ≠ [] := by simp
    exact List.exists_cons_of_ne_nil this
  have hlt : lt = ((s0 :: rest).map (·.time)).getLastD 0 := by
    have h1 : (lt :: older).head? = some lt := rfl
    rw [← hrev, List.head?_reverse] at h1
    have h2 := List.getLastD_eq_getLast? 0 ((s0 :: rest).map (·.time))
    rw [h1] at h2
    simpa using h2.symm
  have hrun : runAgg T (s0 :: rest) =
      { buffer := none,
        timers := timersOfRev T (lt :: older),
        flushes := [(lt + T, (s0 :: rest).map (·.ident))] } := by
    unfold runAgg
    rw [hfold, hfilter, hrevall, hrev]
    unfold finalFire
    rw [timersOfRev]
    dsimp only
    rw [if_pos rfl]
    simp
  constructor
  · rw [hrun, hlt]
  · intro v
    rw [hrun]
    dsimp only
    have hchainrev : List.Chain (fun a b => b ≤ a) lt older := by
      have hcf : List.Chain (fun a b : Nat => a ≤ b) s0.time (rest.map (·.time)) :=
        hchain.imp (fun a b h => h.1)
      have hc' : List.Chain' (fun a b : Nat => a ≤ b) ((s0 :: rest).map (·.time)) := by
        rw [List.map_cons]
        exact hcf
      have hrevc : List.Chain' (fun a b : Nat => b ≤ a)
          (((s0 :: rest).map (·.time)).reverse) := by
        rw [List.chain'_reverse]
        exact hc'.imp (fun a b h => h)
      rw [hrev] at hrevc
      exact hrevc
    exact timersOfRev_live T lt older v hchainrev

/-- Witness for C6: three photo submissions at instants 0, 1, 2 with
debounce 25; one flush at 2 + 25 with all three idents, and at most one
live timer at every instant. -/
theorem album_debounce_C6_witness :
    (runAgg 25 [⟨0, true, 10⟩, ⟨1, true, 11⟩, ⟨2, true, 12⟩]).flushes =
      [((([⟨0, true, 10⟩, ⟨1, true, 11⟩, ⟨2, true, 12⟩] :
            List Submission).map (·.time)).getLastD 0 + 25,
        ([⟨0, true, 10⟩, ⟨1, true, 11⟩, ⟨2, true, 12⟩] : List Submission).map (·.ident))] ∧
    (∀ v : Nat,
      ((runAgg 25 [⟨0, true, 10⟩, ⟨1, true, 11⟩, ⟨2, true, 12⟩]).timers.countP (liveAt v)) ≤ 1) :=
  album_debounce_C6 25 (by decide) ⟨0, true, 10⟩ [⟨1, true, 11⟩, ⟨2, true, 12⟩]
    (List.Chain.cons (by norm_num) (List.Chain.cons (by norm_num) List.Chain.nil))
    (by decide)

end Telebot
